import Mathlib

/-!
# nanoservices-utils — formal model of the contract messaging core

A shallow embedding of the contract-based messaging subsystem of the
`nanoservices-utils` repository, together with proofs settling the
specification's claims about it.

Conventions of the embedding:

* Machine bytes are `Nat` values; every encoder emits values `< 256`
  (`% 256` appears exactly where the source narrows).
* Rust `String` values are modelled as their UTF-8 byte sequences
  (`List Nat`); UTF-8 validity checking inside deserializers is not
  modelled (every byte sequence produced by an encoder from a value is
  accepted back).
* `u32` / `u64` / `i32` casts (`as u32`, `as u8`, …) are modelled with
  explicit `% 2^32`, `% 256`, … at the places the source casts.
* Fallible Rust functions returning `Result<_, NanoServiceError>` become
  `Except NanoServiceError _`; a Rust panic (`Option::unwrap` on `None`,
  `Result::unwrap` on `Err`) becomes an outer `Option` whose `none` is
  the panic.
* Byte streams (`TcpStream` and friends) are modelled as `List Nat`;
  `write_all` appends, `read_exact n` splits off exactly `n` bytes and
  fails on a short stream, exactly like the blocking source primitives.
-/

namespace NanoUtils

/-! ## Byte-level primitives -/

/-- Little-endian byte encoding of `n % 256^w`, exactly `w` bytes.
Models the fixed-width integer layout of the `bincode` default format. -/
def leBytes : Nat → Nat → List Nat
  | 0, _ => []
  | w + 1, n => (n % 256) :: leBytes w (n / 256)

/-- Value of a little-endian byte list. Inverse of `leBytes`. -/
def leToNat : List Nat → Nat
  | [] => 0
  | b :: bs => b % 256 + 256 * leToNat bs

@[simp] theorem leBytes_length (w n : Nat) : (leBytes w n).length = w := by
  induction w generalizing n with
  | zero => rfl
  | succ w ih => simp [leBytes, ih]

theorem leToNat_leBytes (w n : Nat) (h : n < 256 ^ w) :
    leToNat (leBytes w n) = n := by
  induction w generalizing n with
  | zero => simp [leBytes, leToNat]; omega
  | succ w ih =>
      have hdiv : n / 256 < 256 ^ w := by
        rw [Nat.div_lt_iff_lt_mul (by norm_num)]
        calc n < 256 ^ (w + 1) := h
          _ = 256 ^ w * 256 := by ring
      simp [leBytes, leToNat, ih _ hdiv]
      omega

/-- Byte sequence of a Rust string literal. All string literals in this
subsystem are ASCII, so the UTF-8 bytes are the code points. -/
def strBytes (s : String) : List Nat := s.data.map Char.toNat

/-- Model of `std::io::Read::read_exact` over a buffered stream: returns
the first `n` bytes and the rest, or fails when fewer than `n` bytes are
available. -/
def readBytes (n : Nat) (bs : List Nat) : Option (List Nat × List Nat) :=
  if n ≤ bs.length then some (bs.take n, bs.drop n) else none

theorem readBytes_exact (xs : List Nat) (n : Nat) (rest : List Nat)
    (h : xs.length = n) : readBytes n (xs ++ rest) = some (xs, rest) := by
  subst h
  simp [readBytes, List.take_append, List.drop_append]

theorem readBytes_short {bs : List Nat} {n : Nat} (h : bs.length < n) :
    readBytes n bs = none := by
  simp [readBytes]; omega

/-- The `as u32` narrowing cast on a Rust `usize`. -/
def asU32 (n : Nat) : Nat := n % 2 ^ 32

/-- Encoding an `i32` value into its `u32` bit pattern (two's complement). -/
def i32ToU32 (a : Int) : Nat := (a % (2 ^ 32 : Int)).toNat

/-- Reading an `i32` value back from its `u32` bit pattern. -/
def u32ToI32 (n : Nat) : Int :=
  if n < 2 ^ 31 then (n : Int) else (n : Int) - 2 ^ 32

theorem i32ToU32_lt (a : Int) : i32ToU32 a < 2 ^ 32 := by
  have h : (0 : Int) < 2 ^ 32 := by norm_num
  have := Int.emod_lt_of_pos a h
  have h2 := Int.emod_nonneg a (by norm_num : (2 ^ 32 : Int) ≠ 0)
  unfold i32ToU32
  omega

theorem u32ToI32_i32ToU32 (a : Int) (h1 : -(2 ^ 31) ≤ a) (h2 : a < 2 ^ 31) :
    u32ToI32 (i32ToU32 a) = a := by
  unfold u32ToI32 i32ToU32
  have hpos : (0 : Int) < 2 ^ 32 := by norm_num
  have hnn := Int.emod_nonneg a (by norm_num : (2 ^ 32 : Int) ≠ 0)
  have hlt := Int.emod_lt_of_pos a hpos
  rcases le_or_lt 0 a with hc | hc
  · have : a % (2 ^ 32 : Int) = a := Int.emod_eq_of_lt hc (by omega)
    rw [this]
    have ha32 : a.toNat < 2 ^ 31 := by omega
    simp [ha32]
    omega
  · have : a % (2 ^ 32 : Int) = a + 2 ^ 32 := by
      have : (a + 2 ^ 32) % (2 ^ 32 : Int) = a % (2 ^ 32 : Int) := by
        simp [Int.add_mul_emod_self_left]
      rw [← this]
      exact Int.emod_eq_of_lt (by omega) (by omega)
    rw [this]
    have hge : ¬ (a + 2 ^ 32).toNat < 2 ^ 31 := by omega
    simp [hge]
    omega

/-! ## Data model: errors and contracts

From `src/nanoservices-utils/src/errors.rs` and the test instantiation of
`create_contract_handler!` in
`src/nanoservices-utils/src/networking/serialization/wrappers/bincode.rs`
(`ContractOne { name: String, age: i32 }`, unit structs `ContractTwo`,
`ContractThree`). -/

/-- `NanoServiceErrorStatus` (errors.rs), in source declaration order —
the order fixes the serde/bincode variant index. -/
inductive NanoServiceErrorStatus
  | NotFound
  | Forbidden
  | Unknown
  | BadRequest
  | Conflict
  | Unauthorized
  | ContractNotSupported
  deriving DecidableEq, Repr

/-- `NanoServiceError { message: String, status: NanoServiceErrorStatus }`
(errors.rs). The message string is its UTF-8 byte sequence. -/
structure NanoServiceError where
  message : List Nat
  status : NanoServiceErrorStatus
  deriving DecidableEq, Repr

/-- `NanoServiceError::new` (errors.rs). -/
def NanoServiceError.new (message : List Nat) (status : NanoServiceErrorStatus) :
    NanoServiceError :=
  { message := message, status := status }

/-- `ContractOne { name: String, age: i32 }` from the bincode wrapper test
kernel. `name` is the string's UTF-8 byte sequence, `age` the i32 value. -/
structure ContractOne where
  name : List Nat
  age : Int
  deriving DecidableEq, Repr

/-- Unit struct `ContractTwo`. -/
structure ContractTwo where
  deriving DecidableEq, Repr

/-- Unit struct `ContractThree`. -/
structure ContractThree where
  deriving DecidableEq, Repr

/-- The domain of representable Rust values behind `ContractOne`: the
string length is a `usize` (< 2^64) and `age` an `i32`. -/
def ContractOne.valid (c : ContractOne) : Prop :=
  c.name.length < 2 ^ 64 ∧ -(2 ^ 31) ≤ c.age ∧ c.age < 2 ^ 31

instance : DecidablePred ContractOne.valid := by
  intro c
  unfold ContractOne.valid
  infer_instance

/-- The domain of representable Rust values behind `NanoServiceError`. -/
def NanoServiceError.valid (e : NanoServiceError) : Prop :=
  e.message.length < 2 ^ 64

instance : DecidablePred NanoServiceError.valid := by
  intro e
  unfold NanoServiceError.valid
  infer_instance

/-! ## Model of the `bincode` default format at the concrete types

`bincode::serialize` / `bincode::deserialize` are an external crate; the
default format (fixed-width little-endian integers, `u64` length-prefixed
strings, `u32` enum variant indices, trailing bytes tolerated by
`deserialize`) is modelled here at exactly the types the repository
serializes. -/

/-- `bincode::serialize::<ContractOne>`. -/
def bincodeEncodeContractOne (c : ContractOne) : List Nat :=
  leBytes 8 c.name.length ++ c.name.map (· % 256) ++ leBytes 4 (i32ToU32 c.age)

/-- `bincode::deserialize::<ContractOne>`. -/
def bincodeDecodeContractOne (bs : List Nat) : Option ContractOne :=
  match readBytes 8 bs with
  | none => none
  | some (lenB, r1) =>
    match readBytes (leToNat lenB) r1 with
    | none => none
    | some (name, r2) =>
      match readBytes 4 r2 with
      | none => none
      | some (ageB, _) => some ⟨name, u32ToI32 (leToNat ageB)⟩

/-- `bincode` serialization of a unit struct is empty, deserialization
always succeeds. -/
def bincodeEncodeContractTwo (_ : ContractTwo) : List Nat := []

/-- `bincode::deserialize::<ContractTwo>`. -/
def bincodeDecodeContractTwo (_ : List Nat) : Option ContractTwo := some ⟨⟩

/-- `bincode::serialize::<ContractThree>`. -/
def bincodeEncodeContractThree (_ : ContractThree) : List Nat := []

/-- `bincode::deserialize::<ContractThree>`. -/
def bincodeDecodeContractThree (_ : List Nat) : Option ContractThree := some ⟨⟩

/-- serde/bincode variant index of `NanoServiceErrorStatus`, in
declaration order. -/
def statusIndex : NanoServiceErrorStatus → Nat
  | .NotFound => 0
  | .Forbidden => 1
  | .Unknown => 2
  | .BadRequest => 3
  | .Conflict => 4
  | .Unauthorized => 5
  | .ContractNotSupported => 6

/-- Inverse of `statusIndex`. -/
def statusOfIndex : Nat → Option NanoServiceErrorStatus
  | 0 => some .NotFound
  | 1 => some .Forbidden
  | 2 => some .Unknown
  | 3 => some .BadRequest
  | 4 => some .Conflict
  | 5 => some .Unauthorized
  | 6 => some .ContractNotSupported
  | _ => none

/-- `bincode::serialize::<NanoServiceError>`. -/
def bincodeEncodeError (e : NanoServiceError) : List Nat :=
  leBytes 8 e.message.length ++ e.message.map (· % 256) ++
    leBytes 4 (statusIndex e.status)

/-- `bincode::deserialize::<NanoServiceError>`. -/
def bincodeDecodeError (bs : List Nat) : Option NanoServiceError :=
  match readBytes 8 bs with
  | none => none
  | some (lenB, r1) =>
    match readBytes (leToNat lenB) r1 with
    | none => none
    | some (msg, r2) =>
      match readBytes 4 r2 with
      | none => none
      | some (idxB, _) =>
        match statusOfIndex (leToNat idxB) with
        | none => none
        | some st => some ⟨msg, st⟩

theorem statusOfIndex_statusIndex (s : NanoServiceErrorStatus) :
    statusOfIndex (statusIndex s) = some s := by
  cases s <;> rfl

theorem statusIndex_lt (s : NanoServiceErrorStatus) : statusIndex s < 2 ^ 32 := by
  cases s <;> simp [statusIndex]

theorem map_mod_length (xs : List Nat) : (xs.map (· % 256)).length = xs.length :=
  List.length_map xs _

theorem bincodeDecode_bincodeEncode_ContractOne (c : ContractOne)
    (h : c.valid) (rest : List Nat) :
    bincodeDecodeContractOne (bincodeEncodeContractOne c ++ rest) =
      some ⟨c.name.map (· % 256), c.age⟩ := by
  obtain ⟨hlen, hlo, hhi⟩ := h
  unfold bincodeEncodeContractOne bincodeDecodeContractOne
  rw [List.append_assoc, List.append_assoc]
  simp only [readBytes_exact _ 8 _ (leBytes_length 8 _),
    leToNat_leBytes 8 _ (by simpa using hlen),
    readBytes_exact _ c.name.length _ (map_mod_length c.name),
    readBytes_exact _ 4 _ (leBytes_length 4 _),
    leToNat_leBytes 4 _ (i32ToU32_lt c.age),
    u32ToI32_i32ToU32 c.age hlo hhi]

/-- The bytes of a Rust string are `< 256`; its model therefore satisfies
`name.map (· % 256) = name` whenever the value came from the program. -/
def bytesValid (bs : List Nat) : Prop := ∀ b ∈ bs, b < 256

instance : DecidablePred bytesValid := by
  intro bs
  unfold bytesValid
  infer_instance

theorem map_mod_of_bytesValid {bs : List Nat} (h : bytesValid bs) :
    bs.map (· % 256) = bs := by
  induction bs with
  | nil => rfl
  | cons b tl ih =>
      have hb : b < 256 := h b (by simp)
      have htl : bytesValid tl := fun x hx => h x (by simp [hx])
      simp [Nat.mod_eq_of_lt hb, ih htl]

theorem bincode_roundtrip_ContractOne (c : ContractOne)
    (h : c.valid) (hb : bytesValid c.name) (rest : List Nat) :
    bincodeDecodeContractOne (bincodeEncodeContractOne c ++ rest) = some c := by
  rw [bincodeDecode_bincodeEncode_ContractOne c h rest,
    map_mod_of_bytesValid hb]

theorem bincode_roundtrip_Error (e : NanoServiceError)
    (h : e.valid) (hb : bytesValid e.message) (rest : List Nat) :
    bincodeDecodeError (bincodeEncodeError e ++ rest) = some e := by
  unfold bincodeEncodeError bincodeDecodeError
  rw [List.append_assoc, List.append_assoc]
  simp only [readBytes_exact _ 8 _ (leBytes_length 8 _),
    leToNat_leBytes 8 _ (by simpa [NanoServiceError.valid] using h),
    readBytes_exact _ e.message.length _ (map_mod_length e.message),
    readBytes_exact e.message e.message.length _ rfl,
    readBytes_exact _ 4 _ (leBytes_length 4 _),
    leToNat_leBytes 4 _ (statusIndex_lt e.status),
    statusOfIndex_statusIndex, map_mod_of_bytesValid hb]

/-! ## The generated contract-handler enum

`create_contract_handler!(ContractHandler, ContractOne, ContractTwo,
ContractThree)` — the macro of
`src/nanoservices-utils/src/networking/contract.rs` expanded at the
three-contract instantiation its own test suites use. -/

/-- The tagged union generated by `create_contract_handler!`: one variant
per declared contract plus the `NanoServiceError` variant. -/
inductive ContractHandler
  | ContractOne : ContractOne → ContractHandler
  | ContractTwo : ContractTwo → ContractHandler
  | ContractThree : ContractThree → ContractHandler
  | NanoServiceError : NanoServiceError → ContractHandler
  deriving DecidableEq, Repr

/-- Model of Rust `str::to_lowercase` on the ASCII type names the macro
feeds it (`stringify!($variant).to_lowercase()`). -/
def rustToLowercase (s : String) : String :=
  ⟨s.data.map fun c => if c.isUpper then Char.ofNat (c.toNat + 32) else c⟩

/-- `ContractHandler::to_string_ref` (contract.rs lines 77–84):
`format!("\x7b\x7d_contract", stringify!($variant).to_lowercase())` per
declared variant, and the literal `"nanoService_error"` for the error
variant. -/
def ContractHandler.to_string_ref : ContractHandler → String
  | .ContractOne _ => rustToLowercase "ContractOne" ++ "_contract"
  | .ContractTwo _ => rustToLowercase "ContractTwo" ++ "_contract"
  | .ContractThree _ => rustToLowercase "ContractThree" ++ "_contract"
  | .NanoServiceError _ => "nanoService_error"

/-- `ContractHandler::to_contract_bytes` (contract.rs lines 100–119):
serializes the *inner* value of the active variant.
`bincode::serialize` cannot fail at these types, so the fall-through
`"Failed to serialize contract"` branch is unreachable and the model
returns `ok` directly. -/
def ContractHandler.to_contract_bytes :
    ContractHandler → Except NanoUtils.NanoServiceError (List Nat)
  | .ContractOne c => .ok (bincodeEncodeContractOne c)
  | .ContractTwo c => .ok (bincodeEncodeContractTwo c)
  | .ContractThree c => .ok (bincodeEncodeContractThree c)
  | .NanoServiceError e => .ok (bincodeEncodeError e)

/-- `ContractHandler::from_contract_bytes` (contract.rs lines 86–98): one
`if` per *declared* variant, in declaration order; a block returns only
when the tag matches and the deserialize succeeds, otherwise control falls
through to the next block and finally to the `BadRequest` error. The
error variant has no block. -/
def ContractHandler.from_contract_bytes (bytes : List Nat) (string_ref : String) :
    Except NanoUtils.NanoServiceError ContractHandler :=
  match (if string_ref = rustToLowercase "ContractOne" ++ "_contract"
         then bincodeDecodeContractOne bytes else none) with
  | some c => .ok (.ContractOne c)
  | none =>
  match (if string_ref = rustToLowercase "ContractTwo" ++ "_contract"
         then bincodeDecodeContractTwo bytes else none) with
  | some c => .ok (.ContractTwo c)
  | none =>
  match (if string_ref = rustToLowercase "ContractThree" ++ "_contract"
         then bincodeDecodeContractThree bytes else none) with
  | some c => .ok (.ContractThree c)
  | none =>
    .error (NanoServiceError.new (strBytes "Failed to deserialize contract")
      .BadRequest)

/-- `ContractHandler::internal_index` (contract.rs lines 121–130):
1-based ordinal per declared variant, 0 for the error variant. -/
def ContractHandler.internal_index : ContractHandler → Int
  | .ContractOne _ => 1
  | .ContractTwo _ => 2
  | .ContractThree _ => 3
  | .NanoServiceError _ => 0

/-- The generated narrowing accessor `ContractHandler::ContractOne(self)`
(contract.rs lines 50–63); named `accContractOne` here because the
constructor occupies the source name. -/
def ContractHandler.accContractOne :
    ContractHandler → Except NanoUtils.NanoServiceError NanoUtils.ContractOne
  | .ContractOne inner => .ok inner
  | .NanoServiceError inner => .error inner
  | _ => .error (NanoServiceError.new
      (strBytes "Expected variant: ContractOne") .BadRequest)

/-- The generated narrowing accessor `ContractHandler::ContractTwo(self)`. -/
def ContractHandler.accContractTwo :
    ContractHandler → Except NanoUtils.NanoServiceError NanoUtils.ContractTwo
  | .ContractTwo inner => .ok inner
  | .NanoServiceError inner => .error inner
  | _ => .error (NanoServiceError.new
      (strBytes "Expected variant: ContractTwo") .BadRequest)

/-- The generated narrowing accessor `ContractHandler::ContractThree(self)`. -/
def ContractHandler.accContractThree :
    ContractHandler → Except NanoUtils.NanoServiceError NanoUtils.ContractThree
  | .ContractThree inner => .ok inner
  | .NanoServiceError inner => .error inner
  | _ => .error (NanoServiceError.new
      (strBytes "Expected variant: ContractThree") .BadRequest)

/-- The generated accessor `ContractHandler::NanoServiceError(self)`
(contract.rs lines 65–75). -/
def ContractHandler.accNanoServiceError :
    ContractHandler → Except NanoUtils.NanoServiceError NanoUtils.NanoServiceError
  | .NanoServiceError inner => .ok inner
  | _ => .error (NanoServiceError.new
      (strBytes "Expected variant: NanoServiceError") .BadRequest)

/-! ## `bincode` at the whole enum

`bincode::serialize::<ContractHandler>` — serde enums carry a `u32`
little-endian variant index (declaration order) followed by the variant's
data. Used by `BincodeContractWrapper` and `BincodeCodec`, which
serialize the whole envelope. -/

/-- serde/bincode variant index of `ContractHandler`. -/
def handlerIndex : ContractHandler → Nat
  | .ContractOne _ => 0
  | .ContractTwo _ => 1
  | .ContractThree _ => 2
  | .NanoServiceError _ => 3

/-- `bincode::serialize::<ContractHandler>`. -/
def bincodeEncodeHandler : ContractHandler → List Nat
  | .ContractOne c => leBytes 4 0 ++ bincodeEncodeContractOne c
  | .ContractTwo c => leBytes 4 1 ++ bincodeEncodeContractTwo c
  | .ContractThree c => leBytes 4 2 ++ bincodeEncodeContractThree c
  | .NanoServiceError e => leBytes 4 3 ++ bincodeEncodeError e

/-- `bincode::deserialize::<ContractHandler>`. -/
def bincodeDecodeHandler (bs : List Nat) : Option ContractHandler :=
  match readBytes 4 bs with
  | none => none
  | some (idxB, r) =>
    match leToNat idxB with
    | 0 => (bincodeDecodeContractOne r).map .ContractOne
    | 1 => (bincodeDecodeContractTwo r).map .ContractTwo
    | 2 => (bincodeDecodeContractThree r).map .ContractThree
    | 3 => (bincodeDecodeError r).map .NanoServiceError
    | _ => none

/-- The domain of representable Rust values behind `ContractHandler`:
field strings are byte sequences of Rust `String`s, `age` is an `i32`. -/
def ContractHandler.valid : ContractHandler → Prop
  | .ContractOne c => c.valid ∧ bytesValid c.name
  | .ContractTwo _ => True
  | .ContractThree _ => True
  | .NanoServiceError e => e.valid ∧ bytesValid e.message

instance : DecidablePred ContractHandler.valid := by
  intro h
  cases h <;> unfold ContractHandler.valid <;> infer_instance

theorem bincode_roundtrip_Handler (v : ContractHandler) (h : v.valid)
    (rest : List Nat) :
    bincodeDecodeHandler (bincodeEncodeHandler v ++ rest) = some v := by
  cases v with
  | ContractOne c =>
      obtain ⟨hv, hb⟩ := h
      unfold bincodeEncodeHandler bincodeDecodeHandler
      rw [List.append_assoc]
      simp only [readBytes_exact _ 4 _ (leBytes_length 4 _)]
      norm_num [leToNat, leBytes, bincode_roundtrip_ContractOne c hv hb rest]
  | ContractTwo c =>
      unfold bincodeEncodeHandler bincodeDecodeHandler
      rw [List.append_assoc]
      simp only [readBytes_exact _ 4 _ (leBytes_length 4 _)]
      norm_num [leToNat, leBytes, bincodeEncodeContractTwo, bincodeDecodeContractTwo]
  | ContractThree c =>
      unfold bincodeEncodeHandler bincodeDecodeHandler
      rw [List.append_assoc]
      simp only [readBytes_exact _ 4 _ (leBytes_length 4 _)]
      norm_num [leToNat, leBytes, bincodeEncodeContractThree, bincodeDecodeContractThree]
  | NanoServiceError e =>
      obtain ⟨hv, hb⟩ := h
      unfold bincodeEncodeHandler bincodeDecodeHandler
      rw [List.append_assoc]
      simp only [readBytes_exact _ 4 _ (leBytes_length 4 _)]
      norm_num [leToNat, leBytes, bincode_roundtrip_Error e hv hb rest]

/-! ## Dispatcher

`register_contract_routes!(ContractHandler, handle_contract,
ContractOne => h1, ContractTwo => h2)` — the macro of
`src/nanoservices-utils/src/networking/tcp/routing.rs` expanded at the
binding its test servers use (`ContractOne` and `ContractTwo` bound,
`ContractThree` and the error variant unbound). The generated `async fn`
suspends only inside the handler call, so its value semantics is a pure
function of the handler results. -/

/-- The generated `handle_contract` route function (routing.rs lines
4–20), parameterized by the two bound handlers. `$handler_fn(inner).await?`
propagates a handler error unchanged; success is re-wrapped in the same
variant; every unbound variant falls to the `ContractNotSupported` arm. -/
def handle_contract
    (h1 : ContractOne → Except NanoServiceError ContractOne)
    (h2 : ContractTwo → Except NanoServiceError ContractTwo) :
    ContractHandler → Except NanoServiceError ContractHandler
  | .ContractOne inner =>
      match h1 inner with
      | .ok executed => .ok (.ContractOne executed)
      | .error e => .error e
  | .ContractTwo inner =>
      match h2 inner with
      | .ok executed => .ok (.ContractTwo executed)
      | .error e => .error e
  | _ => .error (NanoServiceError.new
      (strBytes "Received unknown contract type.") .ContractNotSupported)

/-! ## Streaming codec

`BincodeCodec` from
`src/nanoservices-utils/src/networking/serialization/codec.rs`. Its
`decode` runs `bincode::deserialize` over the whole buffer: any failure —
including a buffer that merely does not yet hold a full item — is mapped
to an `io::Error`, and the buffer is never advanced. -/

/-- `BincodeCodec::<T>::decode` (codec.rs lines 26–31), at
`T = ContractHandler`. The result pairs the decoder's return value with
the buffer as `decode` leaves it (the source never consumes from `src`). -/
def BincodeCodec.decode (src : List Nat) :
    Except String (Option ContractHandler) × List Nat :=
  match bincodeDecodeHandler src with
  | some v => (.ok (some v), src)
  | none => (.error "deserialize failed", src)

/-- `BincodeCodec::<T>::encode` (codec.rs lines 40–48): appends the
serialized item to the output buffer. -/
def BincodeCodec.encode (item : ContractHandler) (dst : List Nat) : List Nat :=
  dst ++ bincodeEncodeHandler item

/-! ## The self-contained bincode wrapper

`BincodeContractWrapper` from
`src/nanoservices-utils/src/networking/serialization/wrappers/bincode.rs`,
at `T = ContractHandler`. The blocking and async variants have
byte-for-byte the same data behaviour (the async bodies differ only by
`.await` points), so each pair is modelled by two defs with one body. -/

/-- The wrapper struct (bincode.rs lines 15–20). -/
structure BincodeContractWrapper where
  header_bytes : Option (List Nat)
  contract_bytes : Option (List Nat)
  header : Option Nat
  contract : Option ContractHandler

/-- `BincodeContractWrapper::new` (bincode.rs lines 32–56): serializes
eagerly, takes the payload length `as u32`, serializes that header and
checks it is 4 bytes. -/
def BincodeContractWrapper.new (contract : ContractHandler) :
    Except NanoUtils.NanoServiceError BincodeContractWrapper :=
  let contract_bytes := bincodeEncodeHandler contract
  let length := asU32 contract_bytes.length
  let header_bytes_buffer := leBytes 4 length
  if header_bytes_buffer.length ≠ 4 then
    .error (NanoServiceError.new (strBytes "Header bytes length is not 4.")
      .BadRequest)
  else
    .ok { header_bytes := some header_bytes_buffer,
          contract_bytes := some contract_bytes,
          header := none, contract := none }

/-- `BincodeContractWrapper::empty` (bincode.rs lines 64–71). -/
def BincodeContractWrapper.empty : BincodeContractWrapper :=
  { header_bytes := none, contract_bytes := none,
    header := none, contract := none }

/-- `BincodeContractWrapper::blocking_send` (bincode.rs lines 77–87):
`self.header_bytes.unwrap()` / `self.contract_bytes.unwrap()` panic when
the wrapper was built by `empty` — the panic is the outer `none`. On a
`new`-built wrapper it writes header then payload onto the stream. -/
def BincodeContractWrapper.blocking_send (w : BincodeContractWrapper)
    (stream : List Nat) : Option (List Nat) :=
  match w.header_bytes, w.contract_bytes with
  | some header_bytes, some contract_bytes =>
      some (stream ++ header_bytes ++ contract_bytes)
  | _, _ => none

/-- `BincodeContractWrapper::async_send` (bincode.rs lines 119–129): same
unwraps and writes as `blocking_send`, with `.await` at each write. -/
def BincodeContractWrapper.async_send (w : BincodeContractWrapper)
    (stream : List Nat) : Option (List Nat) :=
  match w.header_bytes, w.contract_bytes with
  | some header_bytes, some contract_bytes =>
      some (stream ++ header_bytes ++ contract_bytes)
  | _, _ => none

/-- `BincodeContractWrapper::blocking_receive` (bincode.rs lines 96–113):
`read_exact` 4 header bytes, `bincode::deserialize::<u32>` them,
`read_exact` that many payload bytes, deserialize the contract; on
success the wrapper's `header` and `contract` fields are populated.
Returns the updated wrapper and the unread remainder of the stream. -/
def BincodeContractWrapper.blocking_receive (w : BincodeContractWrapper)
    (stream : List Nat) :
    Except NanoUtils.NanoServiceError (BincodeContractWrapper × List Nat) :=
  match readBytes 4 stream with
  | none => .error (NanoServiceError.new
      (strBytes "failed to fill whole buffer") .BadRequest)
  | some (header_buffer, r1) =>
    let header := leToNat header_buffer
    match readBytes header r1 with
    | none => .error (NanoServiceError.new
        (strBytes "failed to fill whole buffer") .BadRequest)
    | some (contract_buffer, r2) =>
      match bincodeDecodeHandler contract_buffer with
      | none => .error (NanoServiceError.new
          (strBytes "deserialize error") .BadRequest)
      | some c =>
          .ok ({ w with header := some header, contract := some c }, r2)

/-- `BincodeContractWrapper::async_receive` (bincode.rs lines 138–155):
same reads and deserializes as `blocking_receive`, with `.await`s. -/
def BincodeContractWrapper.async_receive (w : BincodeContractWrapper)
    (stream : List Nat) :
    Except NanoUtils.NanoServiceError (BincodeContractWrapper × List Nat) :=
  w.blocking_receive stream

/-! ## The variable-width-header bitcode wrapper

`BitcodeContractWrapper` from
`src/nanoservices-utils/src/networking/serialization/wrappers/bitcode.rs`.
The `bitcode` crate is external and its bit layout undocumented-by-design;
it is modelled by executable stand-ins with the properties the wrapper
relies on: `bitcode::encode::<u32>` emits a *variable* number of bytes
(which is exactly why the wrapper adds the 1-byte pre-header), and
`bitcode::decode` inverts `bitcode::encode` on the encoded buffer. The
wrapper is generic over `T: Encode + DecodeOwned`, modelled as an
explicit codec record. -/

/-- Stand-in for `bitcode::encode::<u32>`: a variable-width (1–4 byte)
minimal little-endian encoding of the value. -/
def bitcodeEncodeU32 (n0 : Nat) : List Nat :=
  let n := n0 % 2 ^ 32
  if n < 256 then [n]
  else if n < 256 ^ 2 then [n % 256, n / 256]
  else if n < 256 ^ 3 then [n % 256, n / 256 % 256, n / 256 ^ 2]
  else [n % 256, n / 256 % 256, n / 256 ^ 2 % 256, n / 256 ^ 3]

theorem bitcodeEncodeU32_nonempty (n : Nat) : bitcodeEncodeU32 n ≠ [] := by
  unfold bitcodeEncodeU32
  dsimp only
  split
  · simp
  · split
    · simp
    · split <;> simp

theorem bitcodeEncodeU32_length_le (n : Nat) :
    (bitcodeEncodeU32 n).length ≤ 4 := by
  unfold bitcodeEncodeU32
  dsimp only
  split
  · simp
  · split
    · simp
    · split <;> simp

theorem leToNat_bitcodeEncodeU32 (n : Nat) :
    leToNat (bitcodeEncodeU32 n) = n % 2 ^ 32 := by
  unfold bitcodeEncodeU32
  dsimp only
  have h32 : n % 2 ^ 32 < 2 ^ 32 := Nat.mod_lt _ (by norm_num)
  split
  · next h => simp [leToNat]; omega
  · next h =>
      split
      · next h2 =>
          simp [leToNat]
          omega
      · next h2 =>
          split
          · next h3 =>
              simp [leToNat]
              omega
          · next h3 =>
              simp [leToNat]
              norm_num at h h2 h3 h32 ⊢
              omega

/-- Stand-in for `bitcode::decode::<u32>`: accepts the buffers
`bitcodeEncodeU32` produces (1–5 bytes), rejecting an empty or oversized
buffer. -/
def bitcodeDecodeU32 (bs : List Nat) : Option Nat :=
  if bs = [] ∨ 5 < bs.length then none else some (leToNat bs)

/-- Stand-in for `bitcode::decode::<u8>` on a 1-byte buffer. -/
def bitcodeDecodeU8 (bs : List Nat) : Option Nat :=
  match bs with
  | [b] => some (b % 256)
  | _ => none

theorem bitcodeDecodeU32_encode (n : Nat) (h : n < 2 ^ 32) :
    bitcodeDecodeU32 (bitcodeEncodeU32 n) = some n := by
  unfold bitcodeDecodeU32
  have h1 := bitcodeEncodeU32_nonempty n
  have h2 := bitcodeEncodeU32_length_le n
  have hne : ¬ (bitcodeEncodeU32 n = [] ∨ 5 < (bitcodeEncodeU32 n).length) := by
    push_neg
    exact ⟨h1, by omega⟩
  rw [if_neg hne, leToNat_bitcodeEncodeU32, Nat.mod_eq_of_lt h]

/-- Model of the `bitcode` codec for a contract type `T: Encode +
DecodeOwned` (`bitcode::encode` / `bitcode::decode` at `T`). -/
structure BitcodeCodec (T : Type) where
  enc : T → List Nat
  dec : List Nat → Option T

/-- The wrapper struct (bitcode.rs lines 24–31). -/
structure BitcodeContractWrapper (T : Type) where
  pre_header_bytes : Option (List Nat)
  header_bytes : Option (List Nat)
  contract_bytes : Option (List Nat)
  pre_header : Option Nat
  header : Option Nat
  contract : Option T

/-- `BitcodeContractWrapper::new` (bitcode.rs lines 43–59): encodes the
contract, encodes the payload length `as u32` into the variable-width
header, and stores the header's byte length `as u8` as the 1-byte
pre-header. -/
def BitcodeContractWrapper.new {T : Type} (codec : BitcodeCodec T) (contract : T) :
    Except NanoServiceError (BitcodeContractWrapper T) :=
  let contract_bytes := codec.enc contract
  let length := asU32 contract_bytes.length
  let header_bytes := bitcodeEncodeU32 length
  let pre_header_bytes := [header_bytes.length % 256]
  .ok { pre_header_bytes := some pre_header_bytes,
        header_bytes := some header_bytes,
        contract_bytes := some contract_bytes,
        pre_header := none, header := none, contract := none }

/-- `BitcodeContractWrapper::empty` (bitcode.rs lines 67–76). -/
def BitcodeContractWrapper.empty (T : Type) : BitcodeContractWrapper T :=
  { pre_header_bytes := none, header_bytes := none, contract_bytes := none,
    pre_header := none, header := none, contract := none }

/-- `BitcodeContractWrapper::blocking_send` (bitcode.rs lines 82–98):
unwraps the three byte fields (panic — outer `none` — on an `empty`
wrapper) and writes pre-header, header, payload in order. -/
def BitcodeContractWrapper.blocking_send {T : Type}
    (w : BitcodeContractWrapper T) (stream : List Nat) : Option (List Nat) :=
  match w.pre_header_bytes, w.header_bytes, w.contract_bytes with
  | some pre_header_bytes, some header_bytes, some contract_bytes =>
      some (stream ++ pre_header_bytes ++ header_bytes ++ contract_bytes)
  | _, _, _ => none

/-- `BitcodeContractWrapper::blocking_receive` (bitcode.rs lines
108–138): `read_exact` 1 pre-header byte, decode it as `u8`; `read_exact`
that many header bytes, decode them as `u32`; `read_exact` that many
payload bytes, decode the contract. Every short read surfaces the
`read_exact` error. Returns the updated wrapper and the unread remainder
of the stream. -/
def BitcodeContractWrapper.blocking_receive {T : Type} (codec : BitcodeCodec T)
    (w : BitcodeContractWrapper T) (stream : List Nat) :
    Except NanoServiceError (BitcodeContractWrapper T × List Nat) :=
  match readBytes 1 stream with
  | none => .error (NanoServiceError.new
      (strBytes "failed to fill whole buffer") .BadRequest)
  | some (pre_header_buffer, r1) =>
    match bitcodeDecodeU8 pre_header_buffer with
    | none => .error (NanoServiceError.new
        (strBytes "pre-header decode error") .BadRequest)
    | some pre_header =>
      match readBytes pre_header r1 with
      | none => .error (NanoServiceError.new
          (strBytes "failed to fill whole buffer") .BadRequest)
      | some (header_buffer, r2) =>
        match bitcodeDecodeU32 header_buffer with
        | none => .error (NanoServiceError.new
            (strBytes "header decode error") .BadRequest)
        | some header =>
          match readBytes header r2 with
          | none => .error (NanoServiceError.new
              (strBytes "failed to fill whole buffer") .BadRequest)
          | some (contract_buffer, r3) =>
            match codec.dec contract_buffer with
            | none => .error (NanoServiceError.new
                (strBytes "contract decode error") .BadRequest)
            | some c =>
                let w2 := { w with pre_header := some pre_header,
                                   header := some header, contract := some c }
                .ok (w2, r3)

/-- `BitcodeContractWrapper::async_send` (bitcode.rs lines 144–160): same
unwraps and writes as `blocking_send`, with `.await`s. -/
def BitcodeContractWrapper.async_send {T : Type}
    (w : BitcodeContractWrapper T) (stream : List Nat) : Option (List Nat) :=
  w.blocking_send stream

/-- `BitcodeContractWrapper::async_receive` (bitcode.rs lines 169–199):
same reads and decodes as `blocking_receive`, with `.await`s. -/
def BitcodeContractWrapper.async_receive {T : Type} (codec : BitcodeCodec T)
    (w : BitcodeContractWrapper T) (stream : List Nat) :
    Except NanoServiceError (BitcodeContractWrapper T × List Nat) :=
  BitcodeContractWrapper.blocking_receive codec w stream

/-! ## Event bus

`config_tokio_event_runtime!` from
`src/nanoservices-utils/src/tokio_pub_sub.rs`. The subscriber registry is
the process-wide `HashMap<String, Vec<EventFunction>>`, modelled as an
association list threaded explicitly; an `EventFunction` takes the raw
bytes and yields a unit of asynchronous work, whose type is the opaque
parameter `α` (the `Pin<Box<dyn Future>>`). `tokio::spawn` of that work
is modelled by collecting the spawned units in the returned list. -/

/-- The subscriber registry (the `HASHMAP` static). -/
structure EventRuntime (α : Type) where
  hashmap : List (String × List (List Nat → α))

/-- Replace-or-append insertion of `HashMap::insert`. -/
def mapInsert {α : Type} (m : List (String × α)) (k : String) (v : α) :
    List (String × α) :=
  if m.any (fun p => p.1 = k) then
    m.map (fun p => if p.1 = k then (k, v) else p)
  else
    m ++ [(k, v)]

/-- `get_from_hashmap` (tokio_pub_sub.rs lines 28–30). -/
def get_from_hashmap {α : Type} (rt : EventRuntime α) (name : String) :
    Option (List (List Nat → α)) :=
  rt.hashmap.lookup name

/-- `insert_into_hashmap` (tokio_pub_sub.rs lines 21–26): fetch the
existing buffer (or a fresh one), push the handler, store it back. -/
def insert_into_hashmap {α : Type} (rt : EventRuntime α) (name : String)
    (func : List Nat → α) : EventRuntime α :=
  let buffer := (get_from_hashmap rt name).getD []
  let buffer := buffer ++ [func]
  ⟨mapInsert rt.hashmap name buffer⟩

/-- `publish_event` (tokio_pub_sub.rs lines 32–46): look the name up; if
absent, print and return (no spawn); otherwise spawn one unit of work per
registered handler, each applied to a clone of the data. Returns the
spawned units together with the registry as the call leaves it. -/
def publish_event {α : Type} (rt : EventRuntime α) (name : String)
    (data : List Nat) : List α × EventRuntime α :=
  match get_from_hashmap rt name with
  | none => ([], rt)
  | some buffer => (buffer.map (fun f => f data), rt)

/-! ## Guest memory bridge

The wasm test harness: host side `src/tests/wasm/client/src/main.rs`,
guest side `register_wasm_contract_routes!` from
`src/nanoservices-utils/src/networking/wasm/routing.rs` as instantiated
by `src/tests/wasm/wasi-server/src/lib.rs`, over the contract types of
`src/tests/wasm/kernel/src/lib.rs`
(`ContractOne { name: String, age: u32 }`). Guest linear memory is
modelled as a bump allocator whose allocations carry their contents;
`ns_malloc` hands out fresh disjoint blocks, reads and writes address a
block by its pointer. -/

/-- Kernel `ContractOne { name: String, age: u32 }`
(tests/wasm/kernel). -/
structure KContractOne where
  name : List Nat
  age : Nat
  deriving DecidableEq, Repr

/-- `bincode::serialize` at the kernel `ContractOne`. -/
def bincodeEncodeKContractOne (c : KContractOne) : List Nat :=
  leBytes 8 c.name.length ++ c.name.map (· % 256) ++ leBytes 4 (c.age % 2 ^ 32)

/-- `bincode::deserialize` at the kernel `ContractOne`. -/
def bincodeDecodeKContractOne (bs : List Nat) : Option KContractOne :=
  match readBytes 8 bs with
  | none => none
  | some (lenB, r1) =>
    match readBytes (leToNat lenB) r1 with
    | none => none
    | some (name, r2) =>
      match readBytes 4 r2 with
      | none => none
      | some (ageB, _) => some ⟨name, leToNat ageB⟩

theorem bincode_roundtrip_KContractOne (c : KContractOne)
    (hlen : c.name.length < 2 ^ 64) (hage : c.age < 2 ^ 32)
    (hb : bytesValid c.name) (rest : List Nat) :
    bincodeDecodeKContractOne (bincodeEncodeKContractOne c ++ rest) = some c := by
  unfold bincodeEncodeKContractOne bincodeDecodeKContractOne
  rw [List.append_assoc, List.append_assoc]
  simp only [readBytes_exact _ 8 _ (leBytes_length 8 _),
    leToNat_leBytes 8 _ (by simpa using hlen),
    readBytes_exact _ c.name.length _ (map_mod_length c.name),
    readBytes_exact c.name c.name.length _ rfl,
    readBytes_exact _ 4 _ (leBytes_length 4 _),
    Nat.mod_eq_of_lt hage, map_mod_of_bytesValid hb]
  rw [leToNat_leBytes 4 c.age (by norm_num at hage ⊢; omega)]

/-- Guest linear memory as an arena of disjoint blocks: a bump pointer
and the live allocations with their contents. -/
structure GuestMem where
  next : Nat
  blocks : List (Nat × List Nat)

/-- The empty guest arena. -/
def GuestMem.init : GuestMem := ⟨0, []⟩

/-- Guest export `ns_malloc(size, align)` (wasm/routing.rs lines 29–32):
a fresh zeroed block; returns its pointer. Alignment 0 is what every call
site passes and does not move the model pointer. -/
def GuestMem.ns_malloc (m : GuestMem) (size : Nat) : Nat × GuestMem :=
  (m.next, ⟨m.next + size, m.blocks ++ [(m.next, List.replicate size 0)]⟩)

/-- `Memory::write` from the host, or a guest-side store: replaces the
contents of the block at `ptr`. -/
def GuestMem.write (m : GuestMem) (ptr : Nat) (bytes : List Nat) : GuestMem :=
  ⟨m.next, m.blocks.map (fun p => if p.1 = ptr then (ptr, bytes) else p)⟩

/-- `Memory::read` of `len` bytes at `ptr`: the contents of the block at
`ptr`, which the call sequence always reads in full. -/
def GuestMem.read (m : GuestMem) (ptr len : Nat) : Option (List Nat) :=
  match m.blocks.lookup ptr with
  | some bs => if bs.length = len then some bs else none
  | none => none

/-- The guest entry point `contractone_contract(ptr, len)` generated by
`register_wasm_contract_routes!` (wasm/routing.rs lines 52–71),
parameterized by the bound handler: read the input bytes, deserialize
(`.unwrap()` — panic is `none`), run the handler (`.unwrap()`), serialize
the result, leak it into a fresh allocation, and return a freshly boxed
`ContractPointer { ptr: i32, len: i32 }` record (8 bytes, two
little-endian 32-bit fields). Also returns the (pointer, size) pairs of
the two allocations it made. -/
def contractone_contract
    (handler : KContractOne → Except NanoServiceError KContractOne)
    (m : GuestMem) (ptr len : Nat) :
    Option (Nat × GuestMem × List (Nat × Nat)) :=
  match m.read ptr len with
  | none => none
  | some bytes =>
    match bincodeDecodeKContractOne bytes with
    | none => none
    | some contract =>
      match handler contract with
      | .error _ => none
      | .ok result =>
        let serialized_data := bincodeEncodeKContractOne result
        let (out_ptr, m1) := m.ns_malloc serialized_data.length
        let m2 := m1.write out_ptr serialized_data
        let (desc_ptr, m3) := m2.ns_malloc 8
        let m4 := m3.write desc_ptr
          (leBytes 4 (asU32 out_ptr) ++ leBytes 4 (asU32 serialized_data.length))
        some (desc_ptr, m4, [(out_ptr, serialized_data.length), (desc_ptr, 8)])

/-- `handle_contract_one` from `src/tests/wasm/wasi-server/src/lib.rs`:
sets `name` to `"Bob"`. -/
def wasiServerHandleContractOne (c : KContractOne) :
    Except NanoServiceError KContractOne :=
  .ok { c with name := strBytes "Bob" }

/-- Outcome of one full host call sequence: the (pointer, size) pairs
allocated (input by the host, result bytes and descriptor by the guest),
the (pointer, size) pairs the host frees, and the decoded output. -/
structure WasmRun where
  allocs : List (Nat × Nat)
  frees : List (Nat × Nat)
  output : KContractOne
  deriving Repr

/-- The host call sequence of `src/tests/wasm/client/src/main.rs` lines
42–82, parameterized by the guest handler and the input contract: wrap
a `ContractOne`, serialize via `to_contract_bytes`, `ns_malloc` the input
block and write it, invoke the guest export resolved by the envelope's
tag (`"contractone_contract"` for this variant), read the 8-byte
descriptor record at the returned pointer, read the result bytes it
describes, then `ns_free` the input block, the result bytes, and the
descriptor — in that order, with the sizes used at allocation. `none` is
a panic of one of the host-side `.unwrap()` calls. -/
def wasmClientMain
    (handler : KContractOne → Except NanoServiceError KContractOne)
    (v : KContractOne) : Option WasmRun :=
  let serialized := bincodeEncodeKContractOne v
  let m0 := GuestMem.init
  let (input_data_ptr, m1) := m0.ns_malloc serialized.length
  let m2 := m1.write input_data_ptr serialized
  match contractone_contract handler m2 input_data_ptr serialized.length with
  | none => none
  | some (ret, m3, guest_allocs) =>
    match m3.read ret 8 with
    | none => none
    | some desc_bytes =>
      let result_ptr := leToNat (desc_bytes.take 4)
      let result_len := leToNat (desc_bytes.drop 4)
      match m3.read result_ptr result_len with
      | none => none
      | some output_contract_buffer =>
        match bincodeDecodeKContractOne output_contract_buffer with
        | none => none
        | some out =>
          some { allocs := (input_data_ptr, serialized.length) :: guest_allocs,
                 frees := [(input_data_ptr, serialized.length),
                           (result_ptr, result_len), (ret, 8)],
                 output := out }

/-! ## Composite helpers used by the claim theorems -/

/-- The byte round trip the envelope's own tests perform:
`from_contract_bytes(to_contract_bytes(e), to_string_ref(e))`. -/
def roundTrip (e : ContractHandler) : Except NanoServiceError ContractHandler :=
  match e.to_contract_bytes with
  | .ok bytes => ContractHandler.from_contract_bytes bytes e.to_string_ref
  | .error err => .error err

/-! ## Claim theorems -/

/-- **C7.** Tag stability and format: for every declared non-error
variant `V` and every value `v` of `V`'s contract type, `to_string_ref`
on the envelope wrapping `v` equals the lowercased type name of `V`
followed by `"_contract"`; the tag is a constant of the variant,
independent of `v`'s field values (and hence of the call count). -/
theorem C7_tag_stability_and_format :
    (∀ c : ContractOne, (ContractHandler.ContractOne c).to_string_ref
        = rustToLowercase "ContractOne" ++ "_contract")
  ∧ (∀ c : ContractTwo, (ContractHandler.ContractTwo c).to_string_ref
        = rustToLowercase "ContractTwo" ++ "_contract")
  ∧ (∀ c : ContractThree, (ContractHandler.ContractThree c).to_string_ref
        = rustToLowercase "ContractThree" ++ "_contract")
  ∧ rustToLowercase "ContractOne" ++ "_contract" = "contractone_contract"
  ∧ rustToLowercase "ContractTwo" ++ "_contract" = "contracttwo_contract"
  ∧ rustToLowercase "ContractThree" ++ "_contract" = "contractthree_contract"
  ∧ (∀ c c' : ContractOne, (ContractHandler.ContractOne c).to_string_ref
        = (ContractHandler.ContractOne c').to_string_ref)
  ∧ (∀ c c' : ContractTwo, (ContractHandler.ContractTwo c).to_string_ref
        = (ContractHandler.ContractTwo c').to_string_ref)
  ∧ (∀ c c' : ContractThree, (ContractHandler.ContractThree c).to_string_ref
        = (ContractHandler.ContractThree c').to_string_ref) := by
  refine ⟨fun _ => rfl, fun _ => rfl, fun _ => rfl, by decide, by decide, by decide,
    fun _ _ => rfl, fun _ _ => rfl, fun _ _ => rfl⟩

/-- **C3 counterexample.** The claim says the accessor returns a
`BadRequest`-kind error naming the expected variant whenever the active
variant differs. But on an envelope whose active variant is
`NanoServiceError`, the generated accessor returns the *carried* error
unchanged — here one whose status is `NotFound`, not `BadRequest`, and
whose message does not name `ContractOne`. -/
theorem C3_error_variant_propagates_counterexample :
    ContractHandler.accContractOne
        (ContractHandler.NanoServiceError
          (NanoServiceError.new (strBytes "boom") .NotFound))
      = .error (NanoServiceError.new (strBytes "boom") .NotFound)
    ∧ NanoServiceErrorStatus.NotFound ≠ NanoServiceErrorStatus.BadRequest := by
  exact ⟨rfl, by decide⟩

/-- **C3 (amended).** For every declared variant `V`, the accessor
returns `Ok(inner)` when the active variant is `V`, returns the carried
error *unchanged* when the active variant is `NanoServiceError`, and
returns a `BadRequest` error naming the expected variant `V` when the
active variant is another declared variant. -/
theorem C3_narrowing_accessor :
    (∀ c : ContractOne, (ContractHandler.ContractOne c).accContractOne = .ok c)
  ∧ (∀ e : NanoServiceError,
      (ContractHandler.NanoServiceError e).accContractOne = .error e)
  ∧ (∀ c : ContractTwo, (ContractHandler.ContractTwo c).accContractOne
      = .error (NanoServiceError.new (strBytes "Expected variant: ContractOne")
          .BadRequest))
  ∧ (∀ c : ContractThree, (ContractHandler.ContractThree c).accContractOne
      = .error (NanoServiceError.new (strBytes "Expected variant: ContractOne")
          .BadRequest))
  ∧ (∀ c : ContractTwo, (ContractHandler.ContractTwo c).accContractTwo = .ok c)
  ∧ (∀ e : NanoServiceError,
      (ContractHandler.NanoServiceError e).accContractTwo = .error e)
  ∧ (∀ c : ContractOne, (ContractHandler.ContractOne c).accContractTwo
      = .error (NanoServiceError.new (strBytes "Expected variant: ContractTwo")
          .BadRequest))
  ∧ (∀ c : ContractThree, (ContractHandler.ContractThree c).accContractTwo
      = .error (NanoServiceError.new (strBytes "Expected variant: ContractTwo")
          .BadRequest))
  ∧ (∀ c : ContractThree, (ContractHandler.ContractThree c).accContractThree = .ok c)
  ∧ (∀ e : NanoServiceError,
      (ContractHandler.NanoServiceError e).accContractThree = .error e)
  ∧ (∀ c : ContractOne, (ContractHandler.ContractOne c).accContractThree
      = .error (NanoServiceError.new (strBytes "Expected variant: ContractThree")
          .BadRequest))
  ∧ (∀ c : ContractTwo, (ContractHandler.ContractTwo c).accContractThree
      = .error (NanoServiceError.new (strBytes "Expected variant: ContractThree")
          .BadRequest)) := by
  refine ⟨fun _ => rfl, fun _ => rfl, fun _ => rfl, fun _ => rfl, fun _ => rfl,
    fun _ => rfl, fun _ => rfl, fun _ => rfl, fun _ => rfl, fun _ => rfl,
    fun _ => rfl, fun _ => rfl⟩

/-- **C2.** Dispatcher postcondition for the generated route function
(two bound handlers, as in the repository's own servers): a bound
variant's envelope is unwrapped, handed to its handler, and on success
re-wrapped in the same variant; a handler error is propagated unchanged;
every unbound variant — the undeclared-route `ContractThree` and the
`Error` variant, which is never routed — yields a `ContractNotSupported`
error. The four arms cover every constructor of the envelope, so the
function is total (no panic). -/
theorem C2_dispatcher_postcondition
    (h1 : ContractOne → Except NanoServiceError ContractOne)
    (h2 : ContractTwo → Except NanoServiceError ContractTwo) :
    (∀ c c', h1 c = .ok c' →
      handle_contract h1 h2 (.ContractOne c) = .ok (.ContractOne c'))
  ∧ (∀ c e, h1 c = .error e →
      handle_contract h1 h2 (.ContractOne c) = .error e)
  ∧ (∀ c c', h2 c = .ok c' →
      handle_contract h1 h2 (.ContractTwo c) = .ok (.ContractTwo c'))
  ∧ (∀ c e, h2 c = .error e →
      handle_contract h1 h2 (.ContractTwo c) = .error e)
  ∧ (∀ c : ContractThree, handle_contract h1 h2 (.ContractThree c)
      = .error (NanoServiceError.new (strBytes "Received unknown contract type.")
          .ContractNotSupported))
  ∧ (∀ e : NanoServiceError, handle_contract h1 h2 (.NanoServiceError e)
      = .error (NanoServiceError.new (strBytes "Received unknown contract type.")
          .ContractNotSupported)) := by
  refine ⟨fun c c' h => ?_, fun c e h => ?_, fun c c' h => ?_, fun c e h => ?_,
    fun _ => rfl, fun _ => rfl⟩ <;> simp [handle_contract, h]

/-- **C2 witness.** The postcondition applied to the identity handlers at
a concrete envelope. -/
theorem C2_dispatcher_postcondition_witness :
    handle_contract (fun c => .ok c) (fun c => .ok c)
        (.ContractOne ⟨strBytes "John", 32⟩)
      = .ok (.ContractOne ⟨strBytes "John", 32⟩) :=
  (C2_dispatcher_postcondition (fun c => .ok c) (fun c => .ok c)).1
    ⟨strBytes "John", 32⟩ ⟨strBytes "John", 32⟩ rfl

/-- **C8.** Event-bus no-subscriber safety: when the registry holds no
entry for the event name, `publish_event` returns normally, spawns no
handler invocation, and leaves the registry exactly as it was. -/
theorem C8_publish_no_subscribers {α : Type} (rt : EventRuntime α)
    (name : String) (data : List Nat)
    (h : get_from_hashmap rt name = none) :
    publish_event rt name data = ([], rt) := by
  unfold publish_event
  rw [h]

/-- **C8 witness.** A registry holding one unrelated subscription;
publishing to an unregistered name spawns nothing and changes nothing. -/
theorem C8_publish_no_subscribers_witness :
    publish_event (⟨[("other_event", [fun _ => (0 : Nat)])]⟩ : EventRuntime Nat)
        "unregistered_name" [1, 2, 3]
      = ([], ⟨[("other_event", [fun _ => (0 : Nat)])]⟩) :=
  C8_publish_no_subscribers _ _ _ rfl

/-- **C10.** Sends on an `empty()`-built bincode wrapper panic: both
`blocking_send` and `async_send` unwrap the `None` header/payload fields
(the model's `none`), instead of returning a `NanoServiceError`; on every
`new()`-built wrapper both sends are defined and write the same bytes. -/
theorem C10_empty_wrapper_send_panics :
    (∀ stream : List Nat,
        BincodeContractWrapper.empty.blocking_send stream = none
      ∧ BincodeContractWrapper.empty.async_send stream = none)
  ∧ (∀ (v : ContractHandler) (w : BincodeContractWrapper) (stream : List Nat),
        BincodeContractWrapper.new v = .ok w →
        ∃ out, w.blocking_send stream = some out
          ∧ w.async_send stream = some out) := by
  constructor
  · intro stream
    exact ⟨rfl, rfl⟩
  · intro v w stream h
    unfold BincodeContractWrapper.new at h
    simp [leBytes_length] at h
    subst h
    exact ⟨_, rfl, rfl⟩

/-- **C10 witness.** The send halves applied to the wrapper `new` builds
for a concrete envelope. -/
theorem C10_empty_wrapper_send_panics_witness :
    ∃ out,
      BincodeContractWrapper.blocking_send
        { header_bytes := some [4, 0, 0, 0], contract_bytes := some [1, 0, 0, 0],
          header := none, contract := none } [] = some out
      ∧ BincodeContractWrapper.async_send
        { header_bytes := some [4, 0, 0, 0], contract_bytes := some [1, 0, 0, 0],
          header := none, contract := none } [] = some out :=
  C10_empty_wrapper_send_panics.2 (.ContractTwo ⟨⟩) _ [] rfl

/-- **C4.** `BincodeCodec::decode` on a buffer holding a strict prefix of
an encoded item does *not* return `Ok(None)`: it maps the deserialize
failure to an I/O error (and never advances the buffer), contradicting
the streaming-decoder contract the claim states. The input below is the
first 8 bytes of the encoding of
`ContractHandler::ContractOne(ContractOne { name: "John", age: 32 })`. -/
theorem C4_decode_insufficient_bytes_errors :
    BincodeCodec.decode
        ((bincodeEncodeHandler (.ContractOne ⟨strBytes "John", 32⟩)).take 8)
      = (.error "deserialize failed",
         (bincodeEncodeHandler (.ContractOne ⟨strBytes "John", 32⟩)).take 8)
    ∧ ((bincodeEncodeHandler (.ContractOne ⟨strBytes "John", 32⟩)).take 8).length
        < (bincodeEncodeHandler (.ContractOne ⟨strBytes "John", 32⟩)).length := by
  exact ⟨rfl, by decide⟩

/-- **C1 counterexample.** The round trip fails on the `NanoServiceError`
variant: its tag is `"nanoService_error"`, which matches none of the
`<variant>_contract` branches of `from_contract_bytes`, so the composite
returns the fall-through `BadRequest` error rather than `Ok(e)`. -/
theorem C1_error_variant_roundtrip_counterexample :
    roundTrip (.NanoServiceError (NanoServiceError.new (strBytes "Test error")
        .BadRequest))
      = .error (NanoServiceError.new (strBytes "Failed to deserialize contract")
          .BadRequest)
    ∧ roundTrip (.NanoServiceError (NanoServiceError.new (strBytes "Test error")
        .BadRequest))
      ≠ .ok (.NanoServiceError (NanoServiceError.new (strBytes "Test error")
          .BadRequest)) := by
  have h1 : roundTrip (.NanoServiceError (NanoServiceError.new (strBytes "Test error")
      .BadRequest))
    = .error (NanoServiceError.new (strBytes "Failed to deserialize contract")
        .BadRequest) := rfl
  refine ⟨h1, fun hc => ?_⟩
  rw [h1] at hc
  exact Except.noConfusion hc

/-- **C1 (amended).** The byte round trip
`from_contract_bytes(to_contract_bytes(e), to_string_ref(e)) == Ok(e)`
holds for every envelope whose active variant is a *declared* contract
variant (with representable field values); for the `NanoServiceError`
variant the composite instead returns the fall-through `BadRequest`
deserialization error. -/
theorem C1_envelope_byte_roundtrip :
    (∀ c : ContractOne, c.valid → bytesValid c.name →
        roundTrip (.ContractOne c) = .ok (.ContractOne c))
  ∧ (∀ c : ContractTwo, roundTrip (.ContractTwo c) = .ok (.ContractTwo c))
  ∧ (∀ c : ContractThree, roundTrip (.ContractThree c) = .ok (.ContractThree c))
  ∧ (∀ e : NanoServiceError, roundTrip (.NanoServiceError e)
      = .error (NanoServiceError.new (strBytes "Failed to deserialize contract")
          .BadRequest)) := by
  refine ⟨fun c hv hb => ?_, fun c => rfl, fun c => rfl, fun e => rfl⟩
  unfold roundTrip ContractHandler.to_contract_bytes ContractHandler.to_string_ref
    ContractHandler.from_contract_bytes
  have h := bincode_roundtrip_ContractOne c hv hb []
  rw [List.append_nil] at h
  simp [h]

/-- **C1 witness.** The declared-variant round trip at a concrete
envelope. -/
theorem C1_envelope_byte_roundtrip_witness :
    roundTrip (.ContractOne ⟨strBytes "John", 32⟩)
      = .ok (.ContractOne ⟨strBytes "John", 32⟩) :=
  C1_envelope_byte_roundtrip.1 ⟨strBytes "John", 32⟩ (by decide) (by decide)

/-- An envelope whose bincode encoding is exactly 2^32 bytes long: the
`as u32` cast in `BincodeContractWrapper::new` truncates its length
header to 0. -/
def vBig : ContractHandler := .ContractOne ⟨List.replicate (2 ^ 32 - 16) 65, 0⟩

/-- The wrapper `new` builds for `vBig`: its 4-byte header encodes
`2^32 % 2^32 = 0`. -/
def wBig : BincodeContractWrapper :=
  { header_bytes := some [0, 0, 0, 0],
    contract_bytes := some (bincodeEncodeHandler vBig),
    header := none, contract := none }

/-- The wrapper `new` builds for `ContractHandler::ContractTwo`. -/
def wTwo : BincodeContractWrapper :=
  { header_bytes := some [4, 0, 0, 0], contract_bytes := some [1, 0, 0, 0],
    header := none, contract := none }

theorem encode_vBig_length : (bincodeEncodeHandler vBig).length = 2 ^ 32 := by
  unfold vBig bincodeEncodeHandler bincodeEncodeContractOne
  simp only [List.length_append, leBytes_length, List.length_map,
    List.length_replicate]
  norm_num

/-- `new` on any envelope: it always takes the success branch, storing
the 4-byte header over the `as u32`-cast payload length. -/
theorem BincodeContractWrapper.new_eq (v : ContractHandler) :
    BincodeContractWrapper.new v
      = .ok { header_bytes := some (leBytes 4 (asU32 (bincodeEncodeHandler v).length)),
              contract_bytes := some (bincodeEncodeHandler v),
              header := none, contract := none } := by
  unfold BincodeContractWrapper.new
  rw [if_neg]
  rw [leBytes_length]
  exact fun h => h rfl

/-- `blocking_send` on a `new`-shaped wrapper writes header then payload. -/
theorem BincodeContractWrapper.blocking_send_eq (hb cb stream : List Nat) :
    BincodeContractWrapper.blocking_send
      { header_bytes := some hb, contract_bytes := some cb,
        header := none, contract := none } stream
      = some (stream ++ hb ++ cb) := rfl

theorem readBytes_zero (bs : List Nat) : readBytes 0 bs = some ([], bs) := by
  unfold readBytes
  rw [if_pos (Nat.zero_le _), List.take_zero, List.drop_zero]

/-- A frame whose length header reads 0 makes `blocking_receive` hand a
0-byte buffer to `bincode::deserialize`, which fails. -/
theorem blocking_receive_zero_header (tail : List Nat) :
    BincodeContractWrapper.empty.blocking_receive ([0, 0, 0, 0] ++ tail)
      = .error (NanoServiceError.new (strBytes "deserialize error") .BadRequest) := by
  unfold BincodeContractWrapper.blocking_receive
  have h4 : ([0, 0, 0, 0] : List Nat).length = 4 := rfl
  have h0 : leToNat [0, 0, 0, 0] = 0 := rfl
  simp only [readBytes_exact _ 4 tail h4, h0, readBytes_zero]
  rfl

/-- **C5 counterexample.** The claim quantifies over *every* two contract
values, but the length header is the payload length `as u32`: for an
envelope whose encoding is exactly 2^32 bytes (a `ContractOne` carrying a
(2^32−16)-byte string — representable, a 4 GiB Rust `String`), the
header truncates to 0, and the first `blocking_receive` on the two
back-to-back frames reads a 0-byte payload and fails to deserialize it,
instead of yielding `v1`. -/
theorem C5_u32_truncation_counterexample :
    (bincodeEncodeHandler vBig).length = 2 ^ 32
  ∧ BincodeContractWrapper.new vBig = .ok wBig
  ∧ wBig.blocking_send [] = some ([0, 0, 0, 0] ++ bincodeEncodeHandler vBig)
  ∧ BincodeContractWrapper.new (.ContractTwo ⟨⟩) = .ok wTwo
  ∧ wTwo.blocking_send ([0, 0, 0, 0] ++ bincodeEncodeHandler vBig)
      = some (([0, 0, 0, 0] ++ bincodeEncodeHandler vBig) ++ [4, 0, 0, 0] ++ [1, 0, 0, 0])
  ∧ BincodeContractWrapper.empty.blocking_receive
        (([0, 0, 0, 0] ++ bincodeEncodeHandler vBig) ++ [4, 0, 0, 0] ++ [1, 0, 0, 0])
      = .error (NanoServiceError.new (strBytes "deserialize error") .BadRequest) := by
  refine ⟨encode_vBig_length, ?_, ?_, rfl, ?_, ?_⟩
  · rw [BincodeContractWrapper.new_eq vBig]
    unfold wBig
    rw [encode_vBig_length]
    rfl
  · unfold wBig
    rw [BincodeContractWrapper.blocking_send_eq, List.nil_append]
  · unfold wTwo
    rw [BincodeContractWrapper.blocking_send_eq]
  · rw [List.append_assoc, List.append_assoc]
    exact blocking_receive_zero_header _

/-- **C5 (amended).** Frame boundary integrity for the self-contained
bincode wrapper, for every two representable contract values whose
encoded payloads are each shorter than 2^32 bytes (so the `as u32` length
header is exact): writing the two frames back-to-back onto one stream and
receiving twice on empty wrappers yields `v1` then `v2`, in order,
consuming the stream exactly. -/
theorem C5_frame_boundary_integrity
    (v1 v2 : ContractHandler) (w1 w2 : BincodeContractWrapper)
    (hv1 : v1.valid) (hv2 : v2.valid)
    (hl1 : (bincodeEncodeHandler v1).length < 2 ^ 32)
    (hl2 : (bincodeEncodeHandler v2).length < 2 ^ 32)
    (h1 : BincodeContractWrapper.new v1 = .ok w1)
    (h2 : BincodeContractWrapper.new v2 = .ok w2)
    (s1 s2 : List Nat)
    (hs1 : w1.blocking_send [] = some s1)
    (hs2 : w2.blocking_send s1 = some s2) :
    ∃ r1 r2 : BincodeContractWrapper,
      BincodeContractWrapper.empty.blocking_receive s2
          = .ok (r1, leBytes 4 (bincodeEncodeHandler v2).length
                      ++ bincodeEncodeHandler v2)
      ∧ r1.contract = some v1
      ∧ BincodeContractWrapper.empty.blocking_receive
            (leBytes 4 (bincodeEncodeHandler v2).length ++ bincodeEncodeHandler v2)
          = .ok (r2, [])
      ∧ r2.contract = some v2 := by
  have recv : ∀ v : ContractHandler, v.valid →
      (bincodeEncodeHandler v).length < 2 ^ 32 →
      ∀ rest, BincodeContractWrapper.empty.blocking_receive
          (leBytes 4 (bincodeEncodeHandler v).length
            ++ (bincodeEncodeHandler v ++ rest))
        = .ok ({ BincodeContractWrapper.empty with
                 header := some (bincodeEncodeHandler v).length,
                 contract := some v }, rest) := by
    intro v hv hl rest
    have hdec : bincodeDecodeHandler (bincodeEncodeHandler v) = some v := by
      have := bincode_roundtrip_Handler v hv []
      rwa [List.append_nil] at this
    have h256 : (bincodeEncodeHandler v).length < 256 ^ 4 := by
      norm_num at hl ⊢
      omega
    unfold BincodeContractWrapper.blocking_receive
    simp only [readBytes_exact _ 4 (bincodeEncodeHandler v ++ rest) (leBytes_length 4 _),
      leToNat_leBytes 4 (bincodeEncodeHandler v).length h256,
      readBytes_exact (bincodeEncodeHandler v)
        (bincodeEncodeHandler v).length rest rfl, hdec]
  unfold BincodeContractWrapper.new at h1 h2
  simp [leBytes_length] at h1 h2
  subst h1
  subst h2
  simp [BincodeContractWrapper.blocking_send] at hs1 hs2
  subst hs1
  subst hs2
  simp only [asU32, Nat.mod_eq_of_lt hl1, Nat.mod_eq_of_lt hl2]
  have hfst := recv v1 hv1 hl1
    (leBytes 4 (bincodeEncodeHandler v2).length ++ bincodeEncodeHandler v2)
  have hsnd := recv v2 hv2 hl2 []
  rw [List.append_nil] at hsnd
  refine ⟨{ BincodeContractWrapper.empty with
            header := some (bincodeEncodeHandler v1).length, contract := some v1 },
          { BincodeContractWrapper.empty with
            header := some (bincodeEncodeHandler v2).length, contract := some v2 },
          ?_, rfl, hsnd, rfl⟩
  rw [List.append_assoc]
  exact hfst

/-- **C5 witness.** The two-frame integrity at concrete envelopes
(`ContractOne { name: "John", age: 32 }` then `ContractTwo`). -/
theorem C5_frame_boundary_integrity_witness :
    ∃ r1 r2 : BincodeContractWrapper,
      BincodeContractWrapper.empty.blocking_receive
          (([20, 0, 0, 0] ++ bincodeEncodeHandler (.ContractOne ⟨strBytes "John", 32⟩))
            ++ [4, 0, 0, 0] ++ [1, 0, 0, 0])
          = .ok (r1, leBytes 4 (bincodeEncodeHandler (.ContractTwo ⟨⟩)).length
                      ++ bincodeEncodeHandler (.ContractTwo ⟨⟩))
      ∧ r1.contract = some (.ContractOne ⟨strBytes "John", 32⟩)
      ∧ BincodeContractWrapper.empty.blocking_receive
            (leBytes 4 (bincodeEncodeHandler (.ContractTwo ⟨⟩)).length
              ++ bincodeEncodeHandler (.ContractTwo ⟨⟩))
          = .ok (r2, [])
      ∧ r2.contract = some (.ContractTwo ⟨⟩) := by
  have h := C5_frame_boundary_integrity
    (.ContractOne ⟨strBytes "John", 32⟩) (.ContractTwo ⟨⟩)
    { header_bytes := some [20, 0, 0, 0],
      contract_bytes := some (bincodeEncodeHandler (.ContractOne ⟨strBytes "John", 32⟩)),
      header := none, contract := none }
    wTwo (by decide) (by decide) (by decide) (by decide) rfl rfl
    ([20, 0, 0, 0] ++ bincodeEncodeHandler (.ContractOne ⟨strBytes "John", 32⟩))
    (([20, 0, 0, 0] ++ bincodeEncodeHandler (.ContractOne ⟨strBytes "John", 32⟩))
      ++ [4, 0, 0, 0] ++ [1, 0, 0, 0])
    (by simp [BincodeContractWrapper.blocking_send])
    (by simp [BincodeContractWrapper.blocking_send, wTwo])
  exact h

/-- The wire frame the bitcode wrapper emits for a contract `v`: the
1-byte pre-header (byte length of the variable-width header, `as u8`),
then the header (the `as u32` payload length, variable-width encoded),
then the payload. -/
def bitcodeWireFrame {T : Type} (codec : BitcodeCodec T) (v : T) : List Nat :=
  [(bitcodeEncodeU32 (asU32 (codec.enc v).length)).length % 256]
    ++ bitcodeEncodeU32 (asU32 (codec.enc v).length) ++ codec.enc v

theorem bitcode_header_length_mod {T : Type} (codec : BitcodeCodec T) (v : T) :
    (bitcodeEncodeU32 (asU32 (codec.enc v).length)).length % 256
      = (bitcodeEncodeU32 (asU32 (codec.enc v).length)).length :=
  Nat.mod_eq_of_lt (lt_of_le_of_lt (bitcodeEncodeU32_length_le _) (by norm_num))

/-- **C6.** Variable-width-header framing. For every contract value `v`
(over any `bitcode` codec that inverts its own encoding, with a payload
that fits the u32 header):
(1) `new` stores, and the sends emit in order, a 1-byte pre-header equal
to the byte length of the encoded u32 length header, then that header,
then the payload;
(2) `blocking_receive`/`async_receive` read exactly 1 pre-header byte,
then exactly pre-header-many header bytes to learn the payload length,
then exactly that many payload bytes — consuming exactly the frame and
recovering `v`;
(3) on every stream holding only a strict prefix of the frame, the
receive surfaces the `read_exact` short-read error rather than silently
retrying. -/
theorem C6_variable_width_header_framing
    (T : Type) (codec : BitcodeCodec T) (v : T)
    (hdec : codec.dec (codec.enc v) = some v)
    (hlen : (codec.enc v).length < 2 ^ 32) :
    BitcodeContractWrapper.new codec v
      = .ok { pre_header_bytes :=
                some [(bitcodeEncodeU32 (asU32 (codec.enc v).length)).length % 256],
              header_bytes := some (bitcodeEncodeU32 (asU32 (codec.enc v).length)),
              contract_bytes := some (codec.enc v),
              pre_header := none, header := none, contract := none }
  ∧ (∀ stream : List Nat,
      BitcodeContractWrapper.blocking_send (T := T)
        { pre_header_bytes :=
            some [(bitcodeEncodeU32 (asU32 (codec.enc v).length)).length % 256],
          header_bytes := some (bitcodeEncodeU32 (asU32 (codec.enc v).length)),
          contract_bytes := some (codec.enc v),
          pre_header := none, header := none, contract := none } stream
        = some (stream ++ bitcodeWireFrame codec v)
      ∧ BitcodeContractWrapper.async_send (T := T)
        { pre_header_bytes :=
            some [(bitcodeEncodeU32 (asU32 (codec.enc v).length)).length % 256],
          header_bytes := some (bitcodeEncodeU32 (asU32 (codec.enc v).length)),
          contract_bytes := some (codec.enc v),
          pre_header := none, header := none, contract := none } stream
        = some (stream ++ bitcodeWireFrame codec v))
  ∧ (∀ rest : List Nat,
      BitcodeContractWrapper.blocking_receive codec (.empty T)
          (bitcodeWireFrame codec v ++ rest)
        = .ok ({ BitcodeContractWrapper.empty T with
                 pre_header := some (bitcodeEncodeU32 (asU32 (codec.enc v).length)).length,
                 header := some (codec.enc v).length,
                 contract := some v }, rest)
      ∧ BitcodeContractWrapper.async_receive codec (.empty T)
          (bitcodeWireFrame codec v ++ rest)
        = BitcodeContractWrapper.blocking_receive codec (.empty T)
            (bitcodeWireFrame codec v ++ rest))
  ∧ (∀ n : Nat, n < (bitcodeWireFrame codec v).length →
      BitcodeContractWrapper.blocking_receive codec (.empty T)
          ((bitcodeWireFrame codec v).take n)
        = .error (NanoServiceError.new (strBytes "failed to fill whole buffer")
            .BadRequest)) := by
  have hhl := bitcodeEncodeU32_length_le (asU32 (codec.enc v).length)
  have hmod := bitcode_header_length_mod codec v
  have hhlt : (bitcodeEncodeU32 (asU32 (codec.enc v).length)).length < 256 :=
    lt_of_le_of_lt hhl (by norm_num)
  have hu32 : asU32 (codec.enc v).length = (codec.enc v).length :=
    Nat.mod_eq_of_lt hlen
  have hdecu32 : bitcodeDecodeU32 (bitcodeEncodeU32 (asU32 (codec.enc v).length))
      = some (codec.enc v).length := by
    rw [hu32, bitcodeDecodeU32_encode _ hlen]
  refine ⟨rfl, fun stream => ⟨?_, ?_⟩, fun rest => ⟨?_, rfl⟩, fun n hn => ?_⟩
  · unfold BitcodeContractWrapper.blocking_send bitcodeWireFrame
    simp [List.append_assoc]
  · unfold BitcodeContractWrapper.async_send BitcodeContractWrapper.blocking_send
      bitcodeWireFrame
    simp [List.append_assoc]
  · unfold BitcodeContractWrapper.blocking_receive bitcodeWireFrame
    rw [hmod]
    have h1 : ([(bitcodeEncodeU32 (asU32 (codec.enc v).length)).length] : List Nat).length
        = 1 := rfl
    simp only [List.append_assoc,
      readBytes_exact _ 1
        (bitcodeEncodeU32 (asU32 (codec.enc v).length) ++ (codec.enc v ++ rest)) h1]
    have hd8 : bitcodeDecodeU8 [(bitcodeEncodeU32 (asU32 (codec.enc v).length)).length]
        = some (bitcodeEncodeU32 (asU32 (codec.enc v).length)).length := by
      show some ((bitcodeEncodeU32 (asU32 (codec.enc v).length)).length % 256)
          = some (bitcodeEncodeU32 (asU32 (codec.enc v).length)).length
      rw [Nat.mod_eq_of_lt hhlt]
    simp only [hd8,
      readBytes_exact (bitcodeEncodeU32 (asU32 (codec.enc v).length))
        (bitcodeEncodeU32 (asU32 (codec.enc v).length)).length (codec.enc v ++ rest) rfl,
      hdecu32,
      readBytes_exact (codec.enc v) (codec.enc v).length rest rfl, hdec]
  · unfold BitcodeContractWrapper.blocking_receive bitcodeWireFrame
    rw [hmod]
    rcases Nat.eq_zero_or_pos n with hn0 | hnpos
    · subst hn0
      rw [List.take_zero, readBytes_short (by norm_num)]
    · obtain ⟨m, rfl⟩ : ∃ m, n = m + 1 := ⟨n - 1, by omega⟩
      rw [show ([(bitcodeEncodeU32 (asU32 (codec.enc v).length)).length]
            ++ bitcodeEncodeU32 (asU32 (codec.enc v).length) ++ codec.enc v)
          = (bitcodeEncodeU32 (asU32 (codec.enc v).length)).length
            :: (bitcodeEncodeU32 (asU32 (codec.enc v).length) ++ codec.enc v)
        from by simp]
      rw [List.take_succ_cons]
      have h1 : ([(bitcodeEncodeU32 (asU32 (codec.enc v).length)).length] : List Nat).length
          = 1 := rfl
      have hrd : readBytes 1
          ((bitcodeEncodeU32 (asU32 (codec.enc v).length)).length
            :: (bitcodeEncodeU32 (asU32 (codec.enc v).length) ++ codec.enc v).take m)
          = some ([(bitcodeEncodeU32 (asU32 (codec.enc v).length)).length],
              (bitcodeEncodeU32 (asU32 (codec.enc v).length) ++ codec.enc v).take m) :=
        readBytes_exact _ 1 _ h1
      have hd8 : bitcodeDecodeU8 [(bitcodeEncodeU32 (asU32 (codec.enc v).length)).length]
          = some (bitcodeEncodeU32 (asU32 (codec.enc v).length)).length := by
        show some ((bitcodeEncodeU32 (asU32 (codec.enc v).length)).length % 256)
            = some (bitcodeEncodeU32 (asU32 (codec.enc v).length)).length
        rw [Nat.mod_eq_of_lt hhlt]
      rw [hrd]
      dsimp only
      rw [hd8]
      unfold bitcodeWireFrame at hn
      simp only [List.length_append, List.length_cons, List.length_nil] at hn
      rcases lt_or_le m (bitcodeEncodeU32 (asU32 (codec.enc v).length)).length with hm | hm
      · have hsh : ((bitcodeEncodeU32 (asU32 (codec.enc v).length) ++ codec.enc v).take m).length
            < (bitcodeEncodeU32 (asU32 (codec.enc v).length)).length := by
          rw [List.length_take]
          simp only [List.length_append]
          omega
        simp only [readBytes_short hsh]
      · have htk : (bitcodeEncodeU32 (asU32 (codec.enc v).length) ++ codec.enc v).take m
            = bitcodeEncodeU32 (asU32 (codec.enc v).length)
              ++ (codec.enc v).take (m - (bitcodeEncodeU32 (asU32 (codec.enc v).length)).length) := by
          rw [List.take_append_eq_append_take,
            List.take_of_length_le hm]
        have hsh : (((codec.enc v).take
            (m - (bitcodeEncodeU32 (asU32 (codec.enc v).length)).length)).length)
            < (codec.enc v).length := by
          rw [List.length_take]
          omega
        simp only [htk,
          readBytes_exact (bitcodeEncodeU32 (asU32 (codec.enc v).length))
            (bitcodeEncodeU32 (asU32 (codec.enc v).length)).length
            ((codec.enc v).take
              (m - (bitcodeEncodeU32 (asU32 (codec.enc v).length)).length)) rfl,
          hdecu32, readBytes_short hsh]

/-- **C6 witness.** The framing theorem at a concrete 1-byte codec and
value. -/
theorem C6_variable_width_header_framing_witness :
    BitcodeContractWrapper.new
        (⟨fun n => [n % 256], fun bs => match bs with | [b] => some b | _ => none⟩
          : BitcodeCodec Nat) 5
      = .ok { pre_header_bytes := some [1], header_bytes := some [1],
              contract_bytes := some [5],
              pre_header := none, header := none, contract := none } :=
  (C6_variable_width_header_framing Nat
    ⟨fun n => [n % 256], fun bs => match bs with | [b] => some b | _ => none⟩ 5
    rfl (by norm_num)).1

theorem encodeK_length (c : KContractOne) :
    (bincodeEncodeKContractOne c).length = 12 + c.name.length := by
  unfold bincodeEncodeKContractOne
  simp only [List.length_append, leBytes_length, List.length_map]
  omega

theorem bincode_roundtrip_KContractOne_nil (c : KContractOne)
    (hlen : c.name.length < 2 ^ 64) (hage : c.age < 2 ^ 32)
    (hb : bytesValid c.name) :
    bincodeDecodeKContractOne (bincodeEncodeKContractOne c) = some c := by
  have := bincode_roundtrip_KContractOne c hlen hage hb []
  rwa [List.append_nil] at this

/-- **C9.** Guest memory bridge deallocation balance: for one full host
call sequence (allocate input, write, invoke the entry point resolved by
the envelope's tag, read the descriptor, read the result bytes, decode,
free), the host issues exactly three `free` calls whose (pointer, size)
arguments are exactly the three allocations made — the input allocation,
the result-bytes allocation, and the descriptor-record allocation — and
the decoded output is the handler's result. Hypotheses bound the field
sizes so every `as i32`/`as u32` cast in the sequence is exact. -/
theorem C9_guest_memory_balance
    (handler : KContractOne → Except NanoServiceError KContractOne)
    (v r : KContractOne)
    (hvn : v.name.length < 2 ^ 29) (hva : v.age < 2 ^ 32) (hvb : bytesValid v.name)
    (hh : handler v = .ok r)
    (hrn : r.name.length < 2 ^ 29) (hra : r.age < 2 ^ 32) (hrb : bytesValid r.name) :
    ∃ run : WasmRun, wasmClientMain handler v = some run
      ∧ run.frees = run.allocs
      ∧ run.frees.length = 3
      ∧ run.output = r := by
  have hsl : (bincodeEncodeKContractOne v).length = 12 + v.name.length :=
    encodeK_length v
  have htl : (bincodeEncodeKContractOne r).length = 12 + r.name.length :=
    encodeK_length r
  have hdecv : bincodeDecodeKContractOne (bincodeEncodeKContractOne v) = some v :=
    bincode_roundtrip_KContractOne_nil v (by omega) hva hvb
  have hdecr : bincodeDecodeKContractOne (bincodeEncodeKContractOne r) = some r :=
    bincode_roundtrip_KContractOne_nil r (by omega) hra hrb
  have h0s : ((0 : Nat) = (bincodeEncodeKContractOne v).length) = False :=
    eq_false (by omega)
  have h_ctr : contractone_contract handler
      ⟨(bincodeEncodeKContractOne v).length, [(0, bincodeEncodeKContractOne v)]⟩
      0 (bincodeEncodeKContractOne v).length
      = some ((bincodeEncodeKContractOne v).length + (bincodeEncodeKContractOne r).length,
          ⟨(bincodeEncodeKContractOne v).length + (bincodeEncodeKContractOne r).length + 8,
           [(0, bincodeEncodeKContractOne v),
            ((bincodeEncodeKContractOne v).length, bincodeEncodeKContractOne r),
            ((bincodeEncodeKContractOne v).length + (bincodeEncodeKContractOne r).length,
             leBytes 4 (asU32 (bincodeEncodeKContractOne v).length)
               ++ leBytes 4 (asU32 (bincodeEncodeKContractOne r).length))]⟩,
          [((bincodeEncodeKContractOne v).length, (bincodeEncodeKContractOne r).length),
           ((bincodeEncodeKContractOne v).length + (bincodeEncodeKContractOne r).length, 8)]) := by
    have h0st : ((0 : Nat) = (bincodeEncodeKContractOne v).length
        + (bincodeEncodeKContractOne r).length) = False :=
      eq_false (by omega)
    have hsst : ((bincodeEncodeKContractOne v).length
        = (bincodeEncodeKContractOne v).length + (bincodeEncodeKContractOne r).length)
        = False :=
      eq_false (by omega)
    unfold contractone_contract GuestMem.read GuestMem.ns_malloc GuestMem.write
    simp [hh, hdecv, h0s, h0st, hsst]
  have hst0 : (((bincodeEncodeKContractOne v).length
      + (bincodeEncodeKContractOne r).length : Nat) = 0) = False :=
    eq_false (by omega)
  have hsts : (((bincodeEncodeKContractOne v).length
      + (bincodeEncodeKContractOne r).length : Nat)
      = (bincodeEncodeKContractOne v).length) = False :=
    eq_false (by omega)
  have hs0 : (((bincodeEncodeKContractOne v).length : Nat) = 0) = False :=
    eq_false (by omega)
  have hasu_s : asU32 (bincodeEncodeKContractOne v).length
      = (bincodeEncodeKContractOne v).length :=
    Nat.mod_eq_of_lt (by omega)
  have hasu_t : asU32 (bincodeEncodeKContractOne r).length
      = (bincodeEncodeKContractOne r).length :=
    Nat.mod_eq_of_lt (by omega)
  have hlts : leToNat (leBytes 4 (asU32 (bincodeEncodeKContractOne v).length))
      = (bincodeEncodeKContractOne v).length := by
    rw [hasu_s]
    exact leToNat_leBytes 4 _ (by norm_num; omega)
  have hltt : leToNat (leBytes 4 (asU32 (bincodeEncodeKContractOne r).length))
      = (bincodeEncodeKContractOne r).length := by
    rw [hasu_t]
    exact leToNat_leBytes 4 _ (by norm_num; omega)
  have htk : (leBytes 4 (asU32 (bincodeEncodeKContractOne v).length)
      ++ leBytes 4 (asU32 (bincodeEncodeKContractOne r).length)).take 4
      = leBytes 4 (asU32 (bincodeEncodeKContractOne v).length) :=
    List.take_left' (leBytes_length 4 _)
  have hdp : (leBytes 4 (asU32 (bincodeEncodeKContractOne v).length)
      ++ leBytes 4 (asU32 (bincodeEncodeKContractOne r).length)).drop 4
      = leBytes 4 (asU32 (bincodeEncodeKContractOne r).length) :=
    List.drop_left' (leBytes_length 4 _)
  refine ⟨⟨[(0, (bincodeEncodeKContractOne v).length),
            ((bincodeEncodeKContractOne v).length, (bincodeEncodeKContractOne r).length),
            ((bincodeEncodeKContractOne v).length + (bincodeEncodeKContractOne r).length, 8)],
           [(0, (bincodeEncodeKContractOne v).length),
            ((bincodeEncodeKContractOne v).length, (bincodeEncodeKContractOne r).length),
            ((bincodeEncodeKContractOne v).length + (bincodeEncodeKContractOne r).length, 8)],
           r⟩, ?_, rfl, rfl, rfl⟩
  have hb1 : (((bincodeEncodeKContractOne v).length
      + (bincodeEncodeKContractOne r).length : Nat) == 0) = false :=
    beq_eq_false_iff_ne.mpr (by omega)
  have hb2 : (((bincodeEncodeKContractOne v).length
      + (bincodeEncodeKContractOne r).length : Nat)
      == (bincodeEncodeKContractOne v).length) = false :=
    beq_eq_false_iff_ne.mpr (by omega)
  have hb4 : (((bincodeEncodeKContractOne v).length : Nat) == 0) = false :=
    beq_eq_false_iff_ne.mpr (by omega)
  unfold wasmClientMain GuestMem.init GuestMem.ns_malloc GuestMem.write GuestMem.read
  simp [h_ctr, hst0, hsts, hs0, h0s, hdecr, htk, hdp, hlts, hltt, leBytes_length,
    List.lookup, hb1, hb2, hb4]

/-- **C9 witness.** The balance theorem at the harness's own input
(`ContractOne { name: "Alice", age: 42 }`) and the wasi-server handler
(which renames to `"Bob"`). -/
theorem C9_guest_memory_balance_witness :
    ∃ run : WasmRun,
      wasmClientMain wasiServerHandleContractOne ⟨strBytes "Alice", 42⟩ = some run
      ∧ run.frees = run.allocs
      ∧ run.frees.length = 3
      ∧ run.output = ⟨strBytes "Bob", 42⟩ :=
  C9_guest_memory_balance wasiServerHandleContractOne
    ⟨strBytes "Alice", 42⟩ ⟨strBytes "Bob", 42⟩
    (by decide) (by decide) (by decide) rfl (by decide) (by decide) (by decide)

end NanoUtils
